import Mathlib

/-!
# Verification of the StarRocks vectorized bitmap function family

A shallow embedding of `be/src/exprs/vectorized/bitmap_functions.cpp`.

* A **bitmap value** (the external collaborator `BitmapValue`, contract in
  spec §4.0) is modelled as a `Finset ℕ` of unsigned 64-bit members.
* A **column** is a `List (Option α)`: `none` is a SQL NULL row.
* The C++ `RETURN_IF_COLUMNS_ONLY_NULL` short circuit (an input column is a
  const-null column) is modelled as "every row of some input column is null";
  the short circuit returns an all-null column of the input's length, which
  coincides row-by-row with what the per-row loop would produce.
* Batch-fatal errors (`throw std::runtime_error`) are modelled with
  `Except String`; the per-row diagnostics of `to_bitmap`
  (`context->set_error`) as an accumulated `List String`.
-/

namespace BitmapFunctions

/-- A bitmap value: ordered set of unsigned 64-bit integers (spec §4.0). -/
abbrev Bitmap := Finset ℕ

/-- Ascending member list. Modelled from the spec: `to_array` "appends all
members in ascending order" (collaborator `BitmapValue::to_array`). -/
def bitmapToArray (b : Bitmap) : List ℕ :=
  Quot.liftOn b.val (fun l => l.insertionSort (· ≤ ·)) fun a b h =>
    List.eq_of_perm_of_sorted
      (((List.perm_insertionSort _ a).trans h).trans
        (List.perm_insertionSort _ b).symm)
      (List.sorted_insertionSort _ a) (List.sorted_insertionSort _ b)

/-- Modelled from the spec: `to_string` is the "ascending comma-separated
decimal representation" (collaborator `BitmapValue::to_string`). -/
def bitmapToStr (b : Bitmap) : String :=
  String.intercalate "," ((bitmapToArray b).map toString)

/-- Modelled from the spec: `StringParser::string_to_unsigned_int<uint64_t>`
(collaborator, not in the slice) parses the text as a base-10 unsigned 64-bit
integer, failing on any non-numeric text or out-of-range value. -/
def parseDigits : List Char → ℕ → Option ℕ
  | [], acc => some acc
  | c :: cs, acc =>
    if c.isDigit then parseDigits cs (acc * 10 + (c.toNat - 48)) else none

def parseU64 (s : String) : Option ℕ :=
  match s.data with
  | [] => none
  | cs =>
    match parseDigits cs 0 with
    | some v => if v < 2 ^ 64 then some v else none
    | none => none

/-- Row value accessor: `none` when the row is null (or out of range). -/
def rowGet (col : List (Option α)) (i : ℕ) : Option α :=
  col[i]?.join

/-- Whether every row of the column is null: stands in for the
`only_null` test of `RETURN_IF_COLUMNS_ONLY_NULL`. -/
def allNull (c : List (Option α)) : Bool :=
  c.all Option.isNone

/-- The diagnostic `to_bitmap` records for unparsable text
(`strings::Substitute` call at bitmap_functions.cpp:39). -/
def toBitmapErr (s : String) : String :=
  "The input: " ++ s ++ " is not valid, to_bitmap only support bigint value from 0 to 18446744073709551615 currently"

/-- `BitmapFunctions::to_bitmap` (bitmap_functions.cpp:22): per row, null in /
null out; parse success appends the singleton bitmap; parse failure records a
diagnostic on the function context and appends null.  Returns the output
column together with the diagnostics recorded, in row order. -/
def to_bitmap : List (Option String) → List (Option Bitmap) × List String
  | [] => ([], [])
  | none :: rest =>
    let r := to_bitmap rest
    (none :: r.1, r.2)
  | some s :: rest =>
    let r := to_bitmap rest
    match parseU64 s with
    | some v => (some {v} :: r.1, r.2)
    | none => (none :: r.1, toBitmapErr s :: r.2)

/-- Modelled from the spec: the murmur3 hash of the collaborator is an
arbitrary function into the unsigned 32-bit range; `bitmap_hash` is
parametrized over it. -/
def Hash32 := String → ℕ

/-- `BitmapFunctions::bitmap_hash` (bitmap_functions.cpp:58): every row
appends a non-null bitmap; a null input row contributes the fresh (empty)
bitmap, a non-null row the singleton of its hash. -/
def bitmap_hash (hash : Hash32) (col : List (Option String)) : List (Option Bitmap) :=
  col.map fun r =>
    match r with
    | none => some ∅
    | some s => some ({hash s} : Bitmap)

/-- `BitmapFunctions::bitmap_count` (bitmap_functions.cpp:79): a null row
counts as 0, otherwise the bitmap's cardinality; always non-null. -/
def bitmap_count (col : List (Option Bitmap)) : List (Option ℕ) :=
  col.map fun r =>
    match r with
    | none => some 0
    | some b => some b.card

/-- The uniform loop of the binary functions (bitmap_functions.cpp:97-281):
null on either side gives a null row, otherwise the row function applies. -/
def zipRows (f : α → β → γ) (l : List (Option α)) (r : List (Option β)) :
    List (Option γ) :=
  (List.range l.length).map fun i =>
    match rowGet l i, rowGet r i with
    | some a, some b => some (f a b)
    | _, _ => none

/-- `RETURN_IF_COLUMNS_ONLY_NULL` wrapper around the binary loop. -/
def binopCol (f : α → β → γ) (l : List (Option α)) (r : List (Option β)) :
    List (Option γ) :=
  if allNull l ∨ allNull r then List.replicate l.length none
  else zipRows f l r

/-- `BitmapFunctions::bitmap_or` (bitmap_functions.cpp:97): fresh bitmap,
`|=` left, `|=` right. -/
def bitmap_or (l r : List (Option Bitmap)) : List (Option Bitmap) :=
  binopCol (fun a b => (∅ ∪ a) ∪ b) l r

/-- `BitmapFunctions::bitmap_and` (bitmap_functions.cpp:121): fresh bitmap,
`|=` left, `&=` right. -/
def bitmap_and (l r : List (Option Bitmap)) : List (Option Bitmap) :=
  binopCol (fun a b => (∅ ∪ a) ∩ b) l r

/-- `BitmapFunctions::bitmap_xor` (bitmap_functions.cpp:235): fresh bitmap,
`|=` left, `^=` right (symmetric difference). -/
def bitmap_xor (l r : List (Option Bitmap)) : List (Option Bitmap) :=
  binopCol (fun a b => ((∅ ∪ a) \ b) ∪ (b \ (∅ ∪ a))) l r

/-- `BitmapFunctions::bitmap_andnot` (bitmap_functions.cpp:211): fresh
bitmap, `|=` left, `-=` right. -/
def bitmap_andnot (l r : List (Option Bitmap)) : List (Option Bitmap) :=
  binopCol (fun a b => (∅ ∪ a) \ b) l r

/-- `BitmapFunctions::bitmap_remove` (bitmap_functions.cpp:259): fresh
bitmap, `|=` left, then `remove` of the int64 value (converted to the
unsigned 64-bit domain as in the C++ implicit cast). -/
def bitmap_remove (l : List (Option Bitmap)) (r : List (Option Int)) :
    List (Option Bitmap) :=
  binopCol (fun a v => (∅ ∪ a).erase (v % (2 ^ 64 : Int)).toNat) l r

/-- `bitmapContainsImpl` (bitmap_functions.cpp:189), contract of
`BitmapValue::contains` per spec §4.0: negative values are never members. -/
def bitmap_contains (l : List (Option Bitmap)) (r : List (Option Int)) :
    List (Option Bool) :=
  zipRows (fun b v => decide (0 ≤ v ∧ v.toNat ∈ b)) l r

/-- `bitmapHasAny` (bitmap_functions.cpp:199): union-then-intersect as in
`bitmap_and`, then `cardinality() != 0`. -/
def bitmap_has_any (l r : List (Option Bitmap)) : List (Option Bool) :=
  zipRows (fun a b => decide (((∅ ∪ a) ∩ b).card ≠ 0)) l r

/-- `bitmapToStingImpl` (bitmap_functions.cpp:146): cardinality above the
configured `config::max_length_for_bitmap_function` throws a runtime error
naming the limit, before `to_string` is invoked. -/
def bitmapToStingImpl (maxLen : ℕ) (b : Bitmap) : Except String String :=
  if b.card > maxLen then
    Except.error ("bitmap_to_string not supported size > " ++ toString maxLen)
  else Except.ok (bitmapToStr b)

/-- `BitmapFunctions::bitmap_to_string` (bitmap_functions.cpp:155): strict
unary evaluation; the thrown error aborts the whole batch with no partial
output. -/
def bitmap_to_string (maxLen : ℕ) :
    List (Option Bitmap) → Except String (List (Option String))
  | [] => Except.ok []
  | none :: rest =>
    match bitmap_to_string maxLen rest with
    | Except.error e => Except.error e
    | Except.ok tail => Except.ok (none :: tail)
  | some b :: rest =>
    match bitmapToStingImpl maxLen b with
    | Except.error e => Except.error e
    | Except.ok s =>
      match bitmap_to_string maxLen rest with
      | Except.error e => Except.error e
      | Except.ok tail => Except.ok (some s :: tail)

/-- `BitmapFunctions::bitmap_from_string` (bitmap_functions.cpp:159): split
the text on commas and parse every field as an unsigned 64-bit integer
(`SplitStringAndParse` with `safe_strtou64`, modelled from the spec); any
failure, or text longer than `INT32_MAX`, yields a null row. -/
def bitmap_from_string_row (s : String) : Option Bitmap :=
  if s.length > 2 ^ 31 - 1 then none
  else
    match (s.splitOn ",").mapM parseU64 with
    | some vs => some vs.toFinset
    | none => none

/-- Column loop of `bitmap_from_string`, with the only-null short circuit. -/
def bitmap_from_string (col : List (Option String)) : List (Option Bitmap) :=
  if allNull col then List.replicate col.length none
  else col.map (fun r => r.bind bitmap_from_string_row)

/-- `BitmapFunctions::detect_bitmap_cardinality` (bitmap_functions.cpp:283):
throws when the candidate cardinality alone exceeds the configured maximum,
otherwise adds it to the running size. -/
def detect_bitmap_cardinality (maxLen : ℕ) (data_size : ℕ) (cardinality : ℕ) :
    Except String ℕ :=
  if cardinality > maxLen then
    Except.error ("bitmap_to_array not supported size > " ++ toString maxLen)
  else Except.ok (data_size + cardinality)

/-- The pre-pass of `bitmap_to_array` (bitmap_functions.cpp:303-315): apply
`detect_bitmap_cardinality` to every non-null row in order, accumulating the
total element count. -/
def bitmapToArrayPrePass (maxLen : ℕ) :
    ℕ → List (Option Bitmap) → Except String ℕ
  | acc, [] => Except.ok acc
  | acc, none :: rest => bitmapToArrayPrePass maxLen acc rest
  | acc, some b :: rest =>
    match detect_bitmap_cardinality maxLen acc b.card with
    | Except.error e => Except.error e
    | Except.ok acc' => bitmapToArrayPrePass maxLen acc' rest

/-- `BitmapFunctions::bitmap_to_array` (bitmap_functions.cpp:292): pre-pass
guard over all rows, then a second pass flattening each non-null bitmap into
its ascending member array; a null row stays a null array row. -/
def bitmap_to_array (maxLen : ℕ) (col : List (Option Bitmap)) :
    Except String (List (Option (List ℕ))) :=
  match bitmapToArrayPrePass maxLen 0 col with
  | Except.error e => Except.error e
  | Except.ok _ => Except.ok (col.map (Option.map bitmapToArray))

/-- The element step of `array_to_bitmap`'s inner loop
(bitmap_functions.cpp:390-397): a null element is skipped, a negative value
is skipped, anything else is added. -/
def arrayToBitmapStep (bm : Bitmap) (e : Option Int) : Bitmap :=
  match e with
  | none => bm
  | some v => if 0 ≤ v then insert v.toNat bm else bm

/-- One row of `array_to_bitmap` (bitmap_functions.cpp:388-397): the inner
loop over the row's elements, started from the fresh bitmap. -/
def array_to_bitmap_row (elems : List (Option Int)) : Bitmap :=
  elems.foldl arrayToBitmapStep ∅

/-- `BitmapFunctions::array_to_bitmap` (bitmap_functions.cpp:356): only-null
short circuit, then per row: a null array row gives a null output row, a
non-null row the bitmap of its usable elements. -/
def array_to_bitmap (col : List (Option (List (Option Int)))) :
    List (Option Bitmap) :=
  if allNull col then List.replicate col.length none
  else col.map (Option.map array_to_bitmap_row)

/-- `BitmapFunctions::bitmap_max` (bitmap_functions.cpp:404): null row or
empty bitmap gives null, otherwise the largest member. -/
def bitmap_max (col : List (Option Bitmap)) : List (Option ℕ) :=
  col.map fun r => r.bind fun b => (bitmapToArray b).getLast?

/-- `BitmapFunctions::bitmap_min` (bitmap_functions.cpp:425): null row or
empty bitmap gives null, otherwise the smallest member. -/
def bitmap_min (col : List (Option Bitmap)) : List (Option ℕ) :=
  col.map fun r => r.bind fun b => (bitmapToArray b).head?

/-- `BitmapFunctions::base64_to_bitmap` (bitmap_functions.cpp:446),
parametrized over the base64 collaborator (`decode`, failure = `none`) and
the binary deserializer of the Bitmap Value Contract (`deser`, failure =
`none`; per spec §4.0 a failed deserialize reports an error rather than
panicking, leaving the freshly constructed bitmap empty).  A null row or
empty text gives null; a decode failure gives null; the deserialize result
is appended without checking the deserializer's outcome, as in the source. -/
def base64_to_bitmap (decode : String → Option (List ℕ))
    (deser : List ℕ → Option Bitmap) (col : List (Option String)) :
    List (Option Bitmap) :=
  col.map fun r =>
    match r with
    | none => none
    | some s =>
      if s.length = 0 then none
      else
        match decode s with
        | none => none
        | some bytes =>
          match deser bytes with
          | some bm => some bm
          | none => some ∅

/-- Modelled from the spec: `BitmapValue::sub_bitmap_internal` /
`extract_range` (spec §4.0): the subset of members starting at a possibly
negative `offset` (negative counts from the highest member) spanning up to
`len` members in ascending order; failure (return 0) when no elements fall
in range. -/
def sub_bitmap_internal (b : Bitmap) (offset len : Int) : Option Bitmap :=
  let l := bitmapToArray b
  let card : Int := l.length
  let start : Int := if 0 ≤ offset then offset else card + offset
  if start < 0 ∨ card ≤ start then none
  else
    let taken := (l.drop start.toNat).take len.toNat
    if taken.isEmpty then none else some taken.toFinset

/-- `INT_MIN`, the sentinel offset rejected by `sub_bitmap`. -/
def int32Min : Int := -(2 ^ 31)

/-- `INT32_MAX`, the default length when the third column is omitted. -/
def int32Max : Int := 2 ^ 31 - 1

/-- One row of `sub_bitmap` (the loop body at bitmap_functions.cpp:504-526):
the two null checks of the source loop, then the `INT_MIN` / empty-bitmap /
non-positive-length guards, then the delegated range extraction. -/
def subBitmapRow (b? : Option Bitmap) (o? len? : Option Int) : Option Bitmap :=
  match b?, o?, len? with
  | some b, some offset, some len =>
    if len ≤ 0 then none
    else if b.card = 0 ∨ offset = int32Min ∨ len ≤ 0 then none
    else sub_bitmap_internal b offset len
  | _, _, _ => none

/-- The effective length column: the third input column when supplied, a
constant `INT32_MAX` column of the batch size otherwise
(bitmap_functions.cpp:492-497). -/
def effLenCol (n : ℕ) (len? : Option (List (Option Int))) :
    List (Option Int) :=
  len?.getD (List.replicate n (some int32Max))

/-- `BitmapFunctions::sub_bitmap` (bitmap_functions.cpp:486): only-null
short circuit over the supplied columns; a missing length column behaves as
a constant `INT32_MAX` column; per row, a null bitmap/offset/length, a
non-positive length, the `INT_MIN` offset, an empty bitmap, or a failed
range extraction all give a null row. -/
def sub_bitmap (bm : List (Option Bitmap)) (off : List (Option Int))
    (len? : Option (List (Option Int))) : List (Option Bitmap) :=
  if allNull bm ∨ allNull off ∨ (∃ lc ∈ len?, allNull lc = true) then
    List.replicate bm.length none
  else
    (List.range bm.length).map fun row =>
      subBitmapRow (rowGet bm row) (rowGet off row)
        (rowGet (effLenCol bm.length len?) row)

/-! ## Helper lemmas about the column loops -/

theorem allNull_rowGet {col : List (Option α)} (h : allNull col = true)
    (i : ℕ) : rowGet col i = none := by
  rw [rowGet]
  cases hc : col[i]? with
  | none => rfl
  | some o =>
    have hm : o ∈ col := List.getElem?_mem hc
    have := List.all_eq_true.mp h o hm
    simp [Option.isNone_iff_eq_none.mp (by simpa using this)]

theorem replicate_none_getElem? (n i : ℕ) (h : i < n) :
    (List.replicate n (none : Option α))[i]? = some none := by
  simp [List.getElem?_replicate, h]

theorem zipRows_length (f : α → β → γ) (l : List (Option α))
    (r : List (Option β)) : (zipRows f l r).length = l.length := by
  simp [zipRows]

theorem zipRows_getElem? (f : α → β → γ) (l : List (Option α))
    (r : List (Option β)) {i : ℕ} (h : i < l.length) :
    (zipRows f l r)[i]? =
      some (match rowGet l i, rowGet r i with
        | some a, some b => some (f a b)
        | _, _ => none) := by
  simp [zipRows, List.getElem?_map, List.getElem?_range, h]

theorem binopCol_length (f : α → β → γ) (l : List (Option α))
    (r : List (Option β)) : (binopCol f l r).length = l.length := by
  rw [binopCol]
  split
  · simp
  · exact zipRows_length f l r

theorem binopCol_getElem?_some (f : α → β → γ) {l : List (Option α)}
    {r : List (Option β)} {i : ℕ} {a : α} {b : β}
    (ha : rowGet l i = some a) (hb : rowGet r i = some b) :
    (binopCol f l r)[i]? = some (some (f a b)) := by
  have hi : i < l.length := by
    by_contra hlt
    rw [rowGet, List.getElem?_eq_none (by omega)] at ha
    simp at ha
  rw [binopCol]
  split
  · rename_i hnull
    rcases hnull with hl | hr
    · rw [allNull_rowGet hl i] at ha; cases ha
    · rw [allNull_rowGet hr i] at hb; cases hb
  · rw [zipRows_getElem? f l r hi, ha, hb]

theorem binopCol_getElem?_null (f : α → β → γ) {l : List (Option α)}
    {r : List (Option β)} {i : ℕ} (hi : i < l.length)
    (h : rowGet l i = none ∨ rowGet r i = none) :
    (binopCol f l r)[i]? = some none := by
  rw [binopCol]
  split
  · exact replicate_none_getElem? _ _ hi
  · rw [zipRows_getElem? f l r hi]
    rcases h with h | h
    · rw [h]
    · rw [h]; cases rowGet l i <;> rfl

/-! ## `to_bitmap`: pointwise characterization -/

/-- The value part of one `to_bitmap` row on non-null text. -/
def toBitmapRow (s : String) : Option Bitmap :=
  (parseU64 s).map fun v => ({v} : Bitmap)

theorem to_bitmap_fst_eq (col : List (Option String)) :
    (to_bitmap col).1 = col.map fun r => r.bind toBitmapRow := by
  induction col with
  | nil => rfl
  | cons hd tl ih =>
    cases hd with
    | none => simp [to_bitmap, ih]
    | some s =>
      rw [to_bitmap]
      cases hp : parseU64 s <;>
        simp [hp, ih, toBitmapRow, Option.bind, hp]

theorem to_bitmap_snd_eq (col : List (Option String)) :
    (to_bitmap col).2 = col.filterMap fun r =>
      r.bind fun s => if parseU64 s = none then some (toBitmapErr s) else none := by
  induction col with
  | nil => rfl
  | cons hd tl ih =>
    cases hd with
    | none => simp [to_bitmap, ih]
    | some s =>
      rw [to_bitmap]
      cases hp : parseU64 s <;> simp [hp, ih]

/-! ## C1: `to_bitmap` per-row behavior -/

/-- **C1.** For every row of `to_bitmap`'s input column: if the row is
non-null and its text parses as a base-10 unsigned 64-bit integer, the
output row is a bitmap of cardinality 1 containing exactly the parsed value;
if the row is non-null and parsing fails, the output row is null, a
diagnostic naming the offending text is recorded on the function context,
and processing continues with the remaining rows (the output keeps one row
per input row). -/
theorem C1_to_bitmap_per_row (col : List (Option String)) (i : ℕ) (s : String)
    (hs : col[i]? = some (some s)) :
    (∀ v, parseU64 s = some v →
      (to_bitmap col).1[i]? = some (some ({v} : Bitmap)) ∧
      ({v} : Bitmap).card = 1 ∧ (∀ w, w ∈ ({v} : Bitmap) ↔ w = v)) ∧
    (parseU64 s = none →
      (to_bitmap col).1[i]? = some none ∧
      toBitmapErr s ∈ (to_bitmap col).2 ∧
      toBitmapErr s = "The input: " ++ s ++
        " is not valid, to_bitmap only support bigint value from 0 to 18446744073709551615 currently") ∧
    (to_bitmap col).1.length = col.length := by
  have hget : (to_bitmap col).1[i]? = some (toBitmapRow s) := by
    rw [to_bitmap_fst_eq, List.getElem?_map, hs]
    rfl
  refine ⟨?_, ?_, ?_⟩
  · intro v hv
    rw [hget, toBitmapRow, hv]
    exact ⟨rfl, Finset.card_singleton v, fun w => Finset.mem_singleton⟩
  · intro hv
    refine ⟨by rw [hget, toBitmapRow, hv]; rfl, ?_, rfl⟩
    rw [to_bitmap_snd_eq]
    refine List.mem_filterMap.mpr ⟨some s, List.getElem?_mem hs, ?_⟩
    simp [hv]
  · rw [to_bitmap_fst_eq, List.length_map]

/-- Witness for C1 at the concrete input column `[some "7"]`. -/
theorem C1_witness :
    (([some "7"] : List (Option String))[0]? = some (some "7")) ∧
    parseU64 "7" = some 7 ∧
    (to_bitmap [some "7"]).1[0]? = some (some ({7} : Bitmap)) := by
  refine ⟨rfl, by decide, ?_⟩
  exact ((C1_to_bitmap_per_row [some "7"] 0 "7" rfl).1 7 (by decide)).1

/-! ## C2: the `bitmap_to_string` cardinality guard -/

theorem bitmap_to_string_error (maxLen : ℕ) (col : List (Option Bitmap))
    (h : ∃ (i : ℕ) (b : Bitmap), col[i]? = some (some b) ∧ maxLen < b.card) :
    bitmap_to_string maxLen col =
      Except.error ("bitmap_to_string not supported size > " ++ toString maxLen) := by
  induction col with
  | nil => obtain ⟨i, b, hb, _⟩ := h; simp at hb
  | cons hd tl ih =>
    obtain ⟨i, b, hb, hcard⟩ := h
    cases hd with
    | none =>
      have htl : ∃ (i : ℕ) (b : Bitmap), tl[i]? = some (some b) ∧ maxLen < b.card := by
        cases i with
        | zero => simp at hb
        | succ j => exact ⟨j, b, by simpa using hb, hcard⟩
      rw [bitmap_to_string, ih htl]
    | some b0 =>
      rw [bitmap_to_string]
      by_cases hc : maxLen < b0.card
      · rw [bitmapToStingImpl, if_pos hc]
      · have htl : ∃ (i : ℕ) (b : Bitmap), tl[i]? = some (some b) ∧ maxLen < b.card := by
          cases i with
          | zero =>
            simp at hb
            subst hb
            exact absurd hcard hc
          | succ j => exact ⟨j, b, by simpa using hb, hcard⟩
        rw [bitmapToStingImpl, if_neg hc, ih htl]

theorem bitmap_to_string_ok (maxLen : ℕ) (col : List (Option Bitmap))
    (h : ∀ (i : ℕ) (b : Bitmap), col[i]? = some (some b) → b.card ≤ maxLen) :
    bitmap_to_string maxLen col =
      Except.ok (col.map (Option.map bitmapToStr)) := by
  induction col with
  | nil => rfl
  | cons hd tl ih =>
    have htl : ∀ (i : ℕ) (b : Bitmap), tl[i]? = some (some b) → b.card ≤ maxLen := by
      intro i b hb
      exact h (i + 1) b (by simpa using hb)
    cases hd with
    | none => rw [bitmap_to_string, ih htl]; rfl
    | some b0 =>
      have hc : ¬maxLen < b0.card := not_lt.mpr (h 0 b0 (by simp))
      rw [bitmap_to_string, bitmapToStingImpl, if_neg hc, ih htl]
      rfl

/-- **C2.** Whenever some input row's bitmap has cardinality strictly above
the configured maximum, the whole `bitmap_to_string` batch aborts with the
fatal error naming the configured limit (no partial output); when every
non-null row is within the limit, each non-null row's output is the bitmap's
ascending comma-separated decimal string and null rows stay null. -/
theorem C2_bitmap_to_string_guard (maxLen : ℕ) (col : List (Option Bitmap)) :
    ((∃ (i : ℕ) (b : Bitmap), col[i]? = some (some b) ∧ maxLen < b.card) →
      bitmap_to_string maxLen col =
        Except.error ("bitmap_to_string not supported size > " ++ toString maxLen)) ∧
    ((∀ (i : ℕ) (b : Bitmap), col[i]? = some (some b) → b.card ≤ maxLen) →
      bitmap_to_string maxLen col =
        Except.ok (col.map (Option.map bitmapToStr))) :=
  ⟨bitmap_to_string_error maxLen col, bitmap_to_string_ok maxLen col⟩

/-- Witness for C2: at limit 2, a 3-element bitmap aborts the batch; a batch
of small bitmaps stringifies row by row. -/
theorem C2_witness :
    (([some ({1, 2, 3} : Bitmap)] : List (Option Bitmap))[0]? =
        some (some ({1, 2, 3} : Bitmap)) ∧ 2 < ({1, 2, 3} : Bitmap).card ∧
      bitmap_to_string 2 [some ({1, 2, 3} : Bitmap)] =
        Except.error ("bitmap_to_string not supported size > " ++ toString 2)) ∧
    bitmap_to_string 2 [some ({5} : Bitmap), none] =
      Except.ok [some (bitmapToStr ({5} : Bitmap)), none] := by
  constructor
  · exact ⟨rfl, by decide,
      (C2_bitmap_to_string_guard 2 [some ({1, 2, 3} : Bitmap)]).1
        ⟨0, {1, 2, 3}, rfl, by decide⟩⟩
  · have h := (C2_bitmap_to_string_guard 2 [some ({5} : Bitmap), none]).2 ?_
    · simpa using h
    · intro i b hb
      match i, hb with
      | 0, hb => simp at hb; subst hb; decide
      | 1, hb => simp at hb
      | j + 2, hb => simp at hb


/-! ## C3: the `bitmap_to_array` pre-pass guard -/

theorem bitmapToArrayPrePass_error (maxLen : ℕ) (col : List (Option Bitmap))
    (h : ∃ (i : ℕ) (b : Bitmap), col[i]? = some (some b) ∧ maxLen < b.card) :
    ∀ acc, bitmapToArrayPrePass maxLen acc col =
      Except.error ("bitmap_to_array not supported size > " ++ toString maxLen) := by
  induction col with
  | nil => obtain ⟨i, b, hb, _⟩ := h; simp at hb
  | cons hd tl ih =>
    intro acc
    obtain ⟨i, b, hb, hcard⟩ := h
    cases hd with
    | none =>
      have htl : ∃ (i : ℕ) (b : Bitmap), tl[i]? = some (some b) ∧ maxLen < b.card := by
        cases i with
        | zero => simp at hb
        | succ j => exact ⟨j, b, by simpa using hb, hcard⟩
      rw [bitmapToArrayPrePass, ih htl]
    | some b0 =>
      rw [bitmapToArrayPrePass]
      by_cases hc : maxLen < b0.card
      · rw [detect_bitmap_cardinality, if_pos hc]
      · have htl : ∃ (i : ℕ) (b : Bitmap), tl[i]? = some (some b) ∧ maxLen < b.card := by
          cases i with
          | zero =>
            simp at hb
            subst hb
            exact absurd hcard hc
          | succ j => exact ⟨j, b, by simpa using hb, hcard⟩
        rw [detect_bitmap_cardinality, if_neg hc]
        exact ih htl (acc + b0.card)

theorem bitmapToArrayPrePass_ok (maxLen : ℕ) (col : List (Option Bitmap))
    (h : ∀ (i : ℕ) (b : Bitmap), col[i]? = some (some b) → b.card ≤ maxLen) :
    ∀ acc, bitmapToArrayPrePass maxLen acc col =
      Except.ok (acc + ((col.filterMap id).map Finset.card).sum) := by
  induction col with
  | nil => intro acc; simp [bitmapToArrayPrePass]
  | cons hd tl ih =>
    intro acc
    have htl : ∀ (i : ℕ) (b : Bitmap), tl[i]? = some (some b) → b.card ≤ maxLen :=
      fun i b hb => h (i + 1) b (by simpa using hb)
    cases hd with
    | none => rw [bitmapToArrayPrePass, ih htl]; simp
    | some b0 =>
      have hc : ¬maxLen < b0.card := not_lt.mpr (h 0 b0 (by simp))
      rw [bitmapToArrayPrePass, detect_bitmap_cardinality, if_neg hc]
      show bitmapToArrayPrePass maxLen (acc + b0.card) tl = _
      rw [ih htl]
      simp [Nat.add_assoc]

/-- Counterexample to **C3** as stated: with the configured maximum at 2, a
batch of two bitmaps of cardinality 2 each has total output element count 4,
exceeding the maximum, yet `bitmap_to_array` succeeds and returns the full
output instead of failing fatally — the pre-pass checks each row's
cardinality alone, never the accumulated sum. -/
theorem C3_counterexample :
    ({0, 1} : Bitmap).card + ({2, 3} : Bitmap).card = 4 ∧ 2 < 4 ∧
    bitmap_to_array 2 [some ({0, 1} : Bitmap), some ({2, 3} : Bitmap)] =
      Except.ok [some [0, 1], some [2, 3]] :=
  ⟨by decide, by decide, by rfl⟩

/-- **C3 (amended).** The `bitmap_to_array` pre-pass aborts the whole batch
with the fatal error naming the configured limit exactly when some single
non-null row's cardinality exceeds the limit; when every non-null row is
individually within the limit the invocation succeeds (even if the
accumulated total exceeds the limit), the pre-pass merely summing the
cardinalities into the running element count. -/
theorem C3_bitmap_to_array_guard (maxLen : ℕ) (col : List (Option Bitmap)) :
    ((∃ (i : ℕ) (b : Bitmap), col[i]? = some (some b) ∧ maxLen < b.card) →
      bitmap_to_array maxLen col =
        Except.error ("bitmap_to_array not supported size > " ++ toString maxLen)) ∧
    ((∀ (i : ℕ) (b : Bitmap), col[i]? = some (some b) → b.card ≤ maxLen) →
      bitmapToArrayPrePass maxLen 0 col =
        Except.ok (((col.filterMap id).map Finset.card).sum) ∧
      bitmap_to_array maxLen col =
        Except.ok (col.map (Option.map bitmapToArray))) := by
  constructor
  · intro h
    rw [bitmap_to_array, bitmapToArrayPrePass_error maxLen col h 0]
  · intro h
    have hok := bitmapToArrayPrePass_ok maxLen col h 0
    rw [Nat.zero_add] at hok
    exact ⟨hok, by rw [bitmap_to_array, hok]⟩

/-- Witness for the amended C3: limit 1 aborts on a cardinality-2 row; limit
2 lets the 4-element batch of the counterexample through. -/
theorem C3_witness :
    (([some ({8, 9} : Bitmap)] : List (Option Bitmap))[0]? =
        some (some ({8, 9} : Bitmap)) ∧ 1 < ({8, 9} : Bitmap).card ∧
      bitmap_to_array 1 [some ({8, 9} : Bitmap)] =
        Except.error ("bitmap_to_array not supported size > " ++ toString 1)) ∧
    bitmap_to_array 2 [some ({0, 1} : Bitmap), some ({2, 3} : Bitmap)] =
      Except.ok [some (bitmapToArray ({0, 1} : Bitmap)),
        some (bitmapToArray ({2, 3} : Bitmap))] := by
  constructor
  · exact ⟨rfl, by decide,
      (C3_bitmap_to_array_guard 1 [some ({8, 9} : Bitmap)]).1
        ⟨0, {8, 9}, rfl, by decide⟩⟩
  · have h := (C3_bitmap_to_array_guard 2
      [some ({0, 1} : Bitmap), some ({2, 3} : Bitmap)]).2 ?_
    · simpa using h.2
    · intro i b hb
      match i, hb with
      | 0, hb => simp at hb; subst hb; decide
      | 1, hb => simp at hb; subst hb; decide
      | j + 2, hb => simp at hb

/-! ## C4: `sub_bitmap` degenerate cases and examples -/

theorem subBitmapRow_none_of (b? : Option Bitmap) (o? l? : Option Int)
    (h : b? = none ∨ o? = none ∨ l? = none ∨
      (∃ l : Int, l? = some l ∧ l ≤ 0) ∨ o? = some int32Min ∨
      (∃ b : Bitmap, b? = some b ∧ b.card = 0) ∨
      (∃ (b : Bitmap) (o l : Int), b? = some b ∧ o? = some o ∧
        l? = some l ∧ sub_bitmap_internal b o l = none)) :
    subBitmapRow b? o? l? = none := by
  cases b? with
  | none => rfl
  | some b =>
    cases o? with
    | none => rfl
    | some o =>
      cases l? with
      | none => rfl
      | some l =>
        rw [subBitmapRow]
        rcases h with h | h | h | ⟨l', hl', hle⟩ | h | ⟨b', hb', hc⟩ |
          ⟨b', o', l', hb', ho', hl', hsub⟩
        · cases h
        · cases h
        · cases h
        · obtain rfl : l = l' := Option.some.inj hl'
          rw [if_pos hle]
        · obtain rfl : o = int32Min := Option.some.inj h
          by_cases hle : l ≤ 0
          · rw [if_pos hle]
          · rw [if_neg hle, if_pos (Or.inr (Or.inl rfl))]
        · obtain rfl : b = b' := Option.some.inj hb'
          by_cases hle : l ≤ 0
          · rw [if_pos hle]
          · rw [if_neg hle, if_pos (Or.inl hc)]
        · obtain rfl : b = b' := Option.some.inj hb'
          obtain rfl : o = o' := Option.some.inj ho'
          obtain rfl : l = l' := Option.some.inj hl'
          by_cases hle : l ≤ 0
          · rw [if_pos hle]
          · rw [if_neg hle]
            by_cases hcond : b.card = 0 ∨ o = int32Min ∨ l ≤ 0
            · rw [if_pos hcond]
            · rw [if_neg hcond]; exact hsub

theorem sub_bitmap_getElem?_none (bm : List (Option Bitmap))
    (off : List (Option Int)) (len? : Option (List (Option Int))) {i : ℕ}
    (hi : i < bm.length)
    (h : subBitmapRow (rowGet bm i) (rowGet off i)
      (rowGet (effLenCol bm.length len?) i) = none) :
    (sub_bitmap bm off len?)[i]? = some none := by
  rw [sub_bitmap]
  split
  · exact replicate_none_getElem? _ _ hi
  · simp only [List.getElem?_map, List.getElem?_range, hi, if_pos, h,
      Option.map_some']

theorem sub_bitmap_omitted_len (bm : List (Option Bitmap))
    (off : List (Option Int)) :
    sub_bitmap bm off none =
      sub_bitmap bm off (some (List.replicate bm.length (some int32Max))) := by
  rcases Nat.eq_zero_or_pos bm.length with h0 | hpos
  · rw [sub_bitmap, sub_bitmap, h0]
    split <;> split <;> rfl
  · by_cases hA : allNull bm = true ∨ allNull off = true
    · rw [sub_bitmap, sub_bitmap,
        if_pos (hA.elim Or.inl fun h => Or.inr (Or.inl h)),
        if_pos (hA.elim Or.inl fun h => Or.inr (Or.inl h))]
    · have hrep : ¬allNull (List.replicate bm.length (some int32Max)) = true := by
        intro h
        have hmem : (some int32Max) ∈ List.replicate bm.length (some int32Max) :=
          List.mem_replicate.mpr ⟨by omega, rfl⟩
        have := List.all_eq_true.mp h _ hmem
        simp at this
      have hL : ¬(allNull bm = true ∨ allNull off = true ∨
          (∃ lc ∈ (none : Option (List (Option Int))), allNull lc = true)) := by
        intro h
        rcases h with h | h | ⟨lc, hlc, _⟩
        · exact hA (Or.inl h)
        · exact hA (Or.inr h)
        · simp at hlc
      have hR : ¬(allNull bm = true ∨ allNull off = true ∨
          (∃ lc ∈ some (List.replicate bm.length (some int32Max)),
            allNull lc = true)) := by
        intro h
        rcases h with h | h | ⟨lc, hlc, hln⟩
        · exact hA (Or.inl h)
        · exact hA (Or.inr h)
        · obtain rfl : List.replicate bm.length (some int32Max) = lc := by
            simpa using hlc
          exact hrep hln
      rw [sub_bitmap, sub_bitmap, if_neg hL, if_neg hR]
      rfl

/-- **C4.** For every row of `sub_bitmap`: the output row is null whenever
the bitmap, offset, or (effective) length input is null, or the length is
non-positive, or the offset equals the signed-32 minimum sentinel, or the
source bitmap is empty, or the delegated range extraction reports no
elements in range; an omitted length column behaves as a constant
`INT32_MAX` column; and on bitmap `{1,2,3,4,5}`, offset 1 with length 2
yields `{2,3}` while offset -2 with length 2 yields `{4,5}`. -/
theorem C4_sub_bitmap_spec :
    (∀ (bm : List (Option Bitmap)) (off : List (Option Int))
      (len? : Option (List (Option Int))) (i : ℕ), i < bm.length →
      (rowGet bm i = none ∨ rowGet off i = none ∨
        rowGet (effLenCol bm.length len?) i = none ∨
        (∃ l : Int, rowGet (effLenCol bm.length len?) i = some l ∧ l ≤ 0) ∨
        rowGet off i = some int32Min ∨
        (∃ b : Bitmap, rowGet bm i = some b ∧ b.card = 0) ∨
        (∃ (b : Bitmap) (o l : Int), rowGet bm i = some b ∧
          rowGet off i = some o ∧
          rowGet (effLenCol bm.length len?) i = some l ∧
          sub_bitmap_internal b o l = none)) →
      (sub_bitmap bm off len?)[i]? = some none) ∧
    (∀ (bm : List (Option Bitmap)) (off : List (Option Int)),
      sub_bitmap bm off none =
        sub_bitmap bm off (some (List.replicate bm.length (some int32Max)))) ∧
    sub_bitmap [some ({1, 2, 3, 4, 5} : Bitmap)] [some 1] (some [some 2]) =
      [some ({2, 3} : Bitmap)] ∧
    sub_bitmap [some ({1, 2, 3, 4, 5} : Bitmap)] [some (-2)] (some [some 2]) =
      [some ({4, 5} : Bitmap)] := by
  refine ⟨?_, sub_bitmap_omitted_len, by decide, by decide⟩
  intro bm off len? i hi h
  exact sub_bitmap_getElem?_none bm off len? hi
    (subBitmapRow_none_of _ _ _ h)

/-- Witness for C4: an empty source bitmap with non-null offset and positive
length still produces a null output row. -/
theorem C4_witness :
    0 < ([some (∅ : Bitmap)] : List (Option Bitmap)).length ∧
    (sub_bitmap [some (∅ : Bitmap)] [some 0] (some [some 5]))[0]? =
      some none := by
  refine ⟨by decide, ?_⟩
  exact C4_sub_bitmap_spec.1 [some ∅] [some 0] (some [some 5]) 0 (by decide)
    (Or.inr (Or.inr (Or.inr (Or.inr (Or.inr (Or.inl ⟨∅, rfl, rfl⟩))))))

/-! ## C5: null propagation of `bitmap_or`, `bitmap_count`, `bitmap_hash` -/

/-- **C5.** Per-row null handling: a null left operand makes the
`bitmap_or` output row null for any right column; `bitmap_count` maps a null
row to the non-null integer 0 and never emits a null row; `bitmap_hash` maps
a null row to a non-null empty bitmap (cardinality 0) and never emits a null
row. -/
theorem C5_null_handling :
    (∀ (l r : List (Option Bitmap)) (i : ℕ), i < l.length →
      rowGet l i = none → (bitmap_or l r)[i]? = some none) ∧
    (∀ (col : List (Option Bitmap)) (i : ℕ), i < col.length →
      (rowGet col i = none → (bitmap_count col)[i]? = some (some 0)) ∧
      ∃ v : ℕ, (bitmap_count col)[i]? = some (some v)) ∧
    (∀ (hash : Hash32) (col : List (Option String)) (i : ℕ), i < col.length →
      (rowGet col i = none →
        (bitmap_hash hash col)[i]? = some (some (∅ : Bitmap)) ∧
        (∅ : Bitmap).card = 0) ∧
      ∃ b : Bitmap, (bitmap_hash hash col)[i]? = some (some b)) := by
  refine ⟨?_, ?_, ?_⟩
  · intro l r i hi hnull
    exact binopCol_getElem?_null _ hi (Or.inl hnull)
  · intro col i hi
    have hcell : col[i]? = some col[i] := List.getElem?_eq_getElem hi
    constructor
    · intro hnull
      rw [rowGet, hcell] at hnull
      have hni : col[i] = none := by simpa using hnull
      rw [bitmap_count, List.getElem?_map, hcell, hni]
      rfl
    · rw [bitmap_count, List.getElem?_map, hcell]
      cases hc : col[i] with
      | none => exact ⟨0, rfl⟩
      | some b => exact ⟨b.card, rfl⟩
  · intro hash col i hi
    have hcell : col[i]? = some col[i] := List.getElem?_eq_getElem hi
    constructor
    · intro hnull
      rw [rowGet, hcell] at hnull
      have hni : col[i] = none := by simpa using hnull
      rw [bitmap_hash, List.getElem?_map, hcell, hni]
      exact ⟨rfl, rfl⟩
    · rw [bitmap_hash, List.getElem?_map, hcell]
      cases hc : col[i] with
      | none => exact ⟨∅, rfl⟩
      | some s => exact ⟨{hash s}, rfl⟩

/-- Witness for C5 at single-row columns with a null first row. -/
theorem C5_witness :
    (0 < ([none] : List (Option Bitmap)).length ∧
      rowGet ([none] : List (Option Bitmap)) 0 = none) ∧
    (bitmap_or [none] [some ({1} : Bitmap)])[0]? = some none ∧
    (bitmap_count ([none] : List (Option Bitmap)))[0]? = some (some 0) ∧
    (bitmap_hash (fun _ => 0) [none])[0]? = some (some (∅ : Bitmap)) := by
  refine ⟨⟨by decide, rfl⟩, ?_, ?_, ?_⟩
  · exact C5_null_handling.1 [none] [some {1}] 0 (by decide) rfl
  · exact (C5_null_handling.2.1 [none] 0 (by decide)).1 rfl
  · exact ((C5_null_handling.2.2 (fun _ => 0) [none] 0 (by decide)).1 rfl).1

/-! ## C6: `base64_to_bitmap` row-local failures -/

/-- A base64 collaborator instance for C6: decodes any text to the single
byte 0. -/
def c6decode : String → Option (List ℕ) := fun _ => some [0]

/-- A bitmap deserializer instance for C6 that fails on every payload. -/
def c6deser : List ℕ → Option Bitmap := fun _ => none

/-- Counterexample to **C6** as stated: the source appends the bitmap
without checking `deserialize`'s outcome (bitmap_functions.cpp:479-481), so
with a decoder that succeeds and a deserializer that fails, the output row
is a non-null (empty) bitmap, not the null row the claim requires. -/
theorem C6_counterexample :
    c6decode "A" = some [0] ∧ c6deser [0] = none ∧
    base64_to_bitmap c6decode c6deser [some "A"] = [some (∅ : Bitmap)] ∧
    base64_to_bitmap c6decode c6deser [some "A"] ≠ [none] :=
  ⟨rfl, rfl, rfl, by decide⟩

/-- **C6 (amended).** For every row of `base64_to_bitmap`: a null input row,
an empty (zero-length) input text, or a base64 decode failure yields a null
output row, and processing continues (one output row per input row); but a
failure to deserialize the decoded bytes does not yield a null row — the
deserializer's outcome is never checked, so on decode success the output row
is always a non-null bitmap (the deserialized value on success, the fresh
empty bitmap on deserialize failure). -/
theorem C6_base64_to_bitmap (decode : String → Option (List ℕ))
    (deser : List ℕ → Option Bitmap) (col : List (Option String)) :
    (base64_to_bitmap decode deser col).length = col.length ∧
    ∀ i : ℕ, i < col.length →
      (rowGet col i = none →
        (base64_to_bitmap decode deser col)[i]? = some none) ∧
      (∀ s : String, rowGet col i = some s →
        (s.length = 0 →
          (base64_to_bitmap decode deser col)[i]? = some none) ∧
        (s.length ≠ 0 → decode s = none →
          (base64_to_bitmap decode deser col)[i]? = some none) ∧
        (∀ bytes : List ℕ, s.length ≠ 0 → decode s = some bytes →
          ∃ b : Bitmap,
            (base64_to_bitmap decode deser col)[i]? = some (some b) ∧
            (∀ b' : Bitmap, deser bytes = some b' → b = b') ∧
            (deser bytes = none → b = ∅))) := by
  constructor
  · rw [base64_to_bitmap, List.length_map]
  · intro i hi
    have hcell : col[i]? = some col[i] := List.getElem?_eq_getElem hi
    have hrow : rowGet col i = col[i] := by rw [rowGet, hcell]; rfl
    have hout : (base64_to_bitmap decode deser col)[i]? =
        some (match col[i] with
          | none => none
          | some s =>
            if s.length = 0 then none
            else
              match decode s with
              | none => none
              | some bytes =>
                match deser bytes with
                | some bm => some bm
                | none => some ∅) := by
      rw [base64_to_bitmap, List.getElem?_map, hcell]
      rfl
    constructor
    · intro hnull
      rw [hrow] at hnull
      rw [hout, hnull]
    · intro s hs
      rw [hrow] at hs
      rw [hs] at hout
      have hout2 : (base64_to_bitmap decode deser col)[i]? =
          some (if s.length = 0 then none
            else
              match decode s with
              | none => none
              | some bytes =>
                match deser bytes with
                | some bm => some bm
                | none => some ∅) := hout
      refine ⟨?_, ?_, ?_⟩
      · intro hlen
        rw [hout2, if_pos hlen]
      · intro hlen hdec
        rw [hout2, if_neg hlen, hdec]
      · intro bytes hlen hdec
        rw [hout2, if_neg hlen, hdec]
        show ∃ b : Bitmap,
          some (match deser bytes with
            | some bm => some bm
            | none => some (∅ : Bitmap)) = some (some b) ∧ _ ∧ _
        cases hd : deser bytes with
        | none =>
          exact ⟨∅, rfl, fun b' hb' => by simp at hb', fun _ => rfl⟩
        | some b' =>
          exact ⟨b', rfl, fun b'' hb'' => Option.some.inj hb'',
            fun hn => by simp at hn⟩

/-- Witness for the amended C6: empty text yields a null row. -/
theorem C6_witness :
    ("" : String).length = 0 ∧
    (base64_to_bitmap c6decode c6deser [some ""])[0]? = some none := by
  refine ⟨rfl, ?_⟩
  exact (((C6_base64_to_bitmap c6decode c6deser [some ""]).2 0
    (by decide)).2 "" rfl).1 rfl

/-! ## C7: `bitmap_has_any` versus `bitmap_count ∘ bitmap_and` -/

/-- **C7.** For every pair of non-null bitmap rows, `bitmap_has_any` returns
true exactly when `bitmap_count (bitmap_and ...)` is positive: the boolean
the one computes is `decide (0 < c)` for the count `c` the other computes at
the same row. -/
theorem C7_has_any_iff_count (l r : List (Option Bitmap)) (i : ℕ)
    (a b : Bitmap) (ha : rowGet l i = some a) (hb : rowGet r i = some b) :
    ∃ c : ℕ, (bitmap_count (bitmap_and l r))[i]? = some (some c) ∧
      (bitmap_has_any l r)[i]? = some (some (decide (0 < c))) := by
  have hi : i < l.length := by
    by_contra hlt
    rw [rowGet, List.getElem?_eq_none (by omega)] at ha
    simp at ha
  have hand : (bitmap_and l r)[i]? = some (some ((∅ ∪ a) ∩ b)) :=
    binopCol_getElem?_some _ ha hb
  refine ⟨((∅ ∪ a) ∩ b).card, ?_, ?_⟩
  · rw [bitmap_count, List.getElem?_map, hand]
    rfl
  · rw [bitmap_has_any, zipRows_getElem? _ l r hi, ha, hb]
    show some (some (decide (((∅ ∪ a) ∩ b).card ≠ 0))) = _
    rw [decide_eq_decide.mpr Nat.pos_iff_ne_zero.symm]

/-- Witness for C7 at overlapping singleton-row bitmaps. -/
theorem C7_witness :
    rowGet [some ({1, 2} : Bitmap)] 0 = some ({1, 2} : Bitmap) ∧
    rowGet [some ({2, 3} : Bitmap)] 0 = some ({2, 3} : Bitmap) ∧
    ∃ c : ℕ,
      (bitmap_count (bitmap_and [some ({1, 2} : Bitmap)]
        [some ({2, 3} : Bitmap)]))[0]? = some (some c) ∧
      (bitmap_has_any [some ({1, 2} : Bitmap)]
        [some ({2, 3} : Bitmap)])[0]? = some (some (decide (0 < c))) :=
  ⟨rfl, rfl, C7_has_any_iff_count _ _ 0 _ _ rfl rfl⟩

/-! ## C9: cardinality bounds of `bitmap_and` / `bitmap_or` -/

/-- **C9.** For every pair of non-null bitmap rows, the `bitmap_and` result
has cardinality at most the minimum of the operands' cardinalities and the
`bitmap_or` result at least their maximum, under the Bitmap Value Contract's
set semantics of the union and intersect mutators. -/
theorem C9_and_or_cardinality (l r : List (Option Bitmap)) (i : ℕ)
    (a b : Bitmap) (ha : rowGet l i = some a) (hb : rowGet r i = some b) :
    (∃ m : Bitmap, (bitmap_and l r)[i]? = some (some m) ∧
      m.card ≤ min a.card b.card) ∧
    (∃ m : Bitmap, (bitmap_or l r)[i]? = some (some m) ∧
      max a.card b.card ≤ m.card) := by
  refine ⟨⟨(∅ ∪ a) ∩ b, binopCol_getElem?_some _ ha hb, ?_⟩,
    ⟨(∅ ∪ a) ∪ b, binopCol_getElem?_some _ ha hb, ?_⟩⟩
  · simp only [Finset.empty_union]
    exact le_min (Finset.card_le_card Finset.inter_subset_left)
      (Finset.card_le_card Finset.inter_subset_right)
  · simp only [Finset.empty_union]
    exact max_le (Finset.card_le_card Finset.subset_union_left)
      (Finset.card_le_card Finset.subset_union_right)

/-- Witness for C9 at concrete two-element bitmaps. -/
theorem C9_witness :
    rowGet [some ({1, 2} : Bitmap)] 0 = some ({1, 2} : Bitmap) ∧
    rowGet [some ({2, 3} : Bitmap)] 0 = some ({2, 3} : Bitmap) ∧
    (∃ m : Bitmap,
      (bitmap_and [some ({1, 2} : Bitmap)] [some ({2, 3} : Bitmap)])[0]? =
        some (some m) ∧
      m.card ≤ min ({1, 2} : Bitmap).card ({2, 3} : Bitmap).card) ∧
    (∃ m : Bitmap,
      (bitmap_or [some ({1, 2} : Bitmap)] [some ({2, 3} : Bitmap)])[0]? =
        some (some m) ∧
      max ({1, 2} : Bitmap).card ({2, 3} : Bitmap).card ≤ m.card) :=
  ⟨rfl, rfl, C9_and_or_cardinality _ _ 0 _ _ rfl rfl⟩

/-! ## C8: `array_to_bitmap` element filtering -/

theorem foldl_arrayToBitmapStep (w : ℕ) :
    ∀ (elems : List (Option Int)) (acc : Bitmap),
      w ∈ elems.foldl arrayToBitmapStep acc ↔
        w ∈ acc ∨ ∃ v : Int, some v ∈ elems ∧ 0 ≤ v ∧ v.toNat = w := by
  intro elems
  induction elems with
  | nil => intro acc; simp
  | cons e es ih =>
    intro acc
    rw [List.foldl_cons, ih]
    cases e with
    | none =>
      simp only [arrayToBitmapStep, List.mem_cons]
      constructor
      · rintro (hw | ⟨v, hv', hge, rfl⟩)
        · exact Or.inl hw
        · exact Or.inr ⟨v, Or.inr hv', hge, rfl⟩
      · rintro (hw | ⟨v, (heq | hv'), hge, rfl⟩)
        · exact Or.inl hw
        · cases heq
        · exact Or.inr ⟨v, hv', hge, rfl⟩
    | some v0 =>
      by_cases hv : 0 ≤ v0
      · simp only [arrayToBitmapStep, if_pos hv, Finset.mem_insert,
          List.mem_cons]
        constructor
        · rintro ((rfl | hw) | ⟨v, hv', hge, rfl⟩)
          · exact Or.inr ⟨v0, Or.inl rfl, hv, rfl⟩
          · exact Or.inl hw
          · exact Or.inr ⟨v, Or.inr hv', hge, rfl⟩
        · rintro (hw | ⟨v, (heq | hv'), hge, rfl⟩)
          · exact Or.inl (Or.inr hw)
          · obtain rfl : v = v0 := Option.some.inj heq
            exact Or.inl (Or.inl rfl)
          · exact Or.inr ⟨v, hv', hge, rfl⟩
      · simp only [arrayToBitmapStep, if_neg hv, List.mem_cons]
        constructor
        · rintro (hw | ⟨v, hv', hge, rfl⟩)
          · exact Or.inl hw
          · exact Or.inr ⟨v, Or.inr hv', hge, rfl⟩
        · rintro (hw | ⟨v, (heq | hv'), hge, rfl⟩)
          · exact Or.inl hw
          · obtain rfl : v = v0 := Option.some.inj heq
            exact absurd hge hv
          · exact Or.inr ⟨v, hv', hge, rfl⟩

/-- **C8.** For every non-null row of `array_to_bitmap` the resulting bitmap
contains exactly the non-null, non-negative elements of that row's array
(null and negative elements are silently skipped); a null array row yields a
null output row; and the input array `[1, -1, null, 2]` yields the set
`{1, 2}`. -/
theorem C8_array_to_bitmap_spec (col : List (Option (List (Option Int))))
    (i : ℕ) (hi : i < col.length) :
    (rowGet col i = none → (array_to_bitmap col)[i]? = some none) ∧
    (∀ elems : List (Option Int), rowGet col i = some elems →
      (array_to_bitmap col)[i]? = some (some (array_to_bitmap_row elems)) ∧
      ∀ w : ℕ, w ∈ array_to_bitmap_row elems ↔
        ∃ v : Int, some v ∈ elems ∧ 0 ≤ v ∧ v.toNat = w) ∧
    array_to_bitmap [some [some 1, some (-1), none, some 2]] =
      [some ({1, 2} : Bitmap)] := by
  have hcell : col[i]? = some col[i] := List.getElem?_eq_getElem hi
  have hrowex : array_to_bitmap_row [some 1, some (-1), none, some 2] =
      ({1, 2} : Bitmap) := by decide
  refine ⟨?_, ?_, ?_⟩
  · intro hnull
    rw [rowGet, hcell] at hnull
    have hni : col[i] = none := by simpa using hnull
    rw [array_to_bitmap]
    split
    · exact replicate_none_getElem? _ _ hi
    · rw [List.getElem?_map, hcell, hni]
      rfl
  · intro elems hs
    rw [rowGet, hcell] at hs
    have hsi : col[i] = some elems := by simpa using hs
    constructor
    · rw [array_to_bitmap]
      split
      · rename_i hnull
        have := allNull_rowGet hnull i
        rw [rowGet, hcell, hsi] at this
        cases this
      · rw [List.getElem?_map, hcell, hsi]
        rfl
    · intro w
      rw [array_to_bitmap_row, foldl_arrayToBitmapStep]
      simp
  · rw [array_to_bitmap, if_neg (by decide)]
    show [some (array_to_bitmap_row [some 1, some (-1), none, some 2])] = _
    rw [hrowex]

/-- Witness for C8 at the claim's example array. -/
theorem C8_witness :
    0 < ([some [some 1, some (-1), none, some 2]] :
      List (Option (List (Option Int)))).length ∧
    rowGet ([some [some 1, some (-1), none, some 2]] :
      List (Option (List (Option Int)))) 0 =
      some [some 1, some (-1), none, some 2] ∧
    (array_to_bitmap [some [some 1, some (-1), none, some 2]])[0]? =
      some (some (array_to_bitmap_row [some 1, some (-1), none, some 2])) := by
  refine ⟨by decide, rfl, ?_⟩
  exact ((C8_array_to_bitmap_spec [some [some 1, some (-1), none, some 2]] 0
    (by decide)).2.1 [some 1, some (-1), none, some 2] rfl).1

/-! ## C10: every per-row function preserves the row count -/

/-- **C10.** Every per-row function returns an output column with exactly as
many rows as input column 0: `to_bitmap`, `bitmap_hash`, `bitmap_count`,
the five binary set-algebra functions, `bitmap_contains`, `bitmap_has_any`,
`bitmap_from_string`, `bitmap_to_array` (when it returns at all),
`array_to_bitmap`, `bitmap_max`/`bitmap_min`, `base64_to_bitmap` and
`sub_bitmap` (with or without a length column), including all-null
short-circuit batches. -/
theorem C10_row_count_invariant :
    (∀ col : List (Option String), (to_bitmap col).1.length = col.length) ∧
    (∀ (hash : Hash32) (col : List (Option String)),
      (bitmap_hash hash col).length = col.length) ∧
    (∀ col : List (Option Bitmap), (bitmap_count col).length = col.length) ∧
    (∀ l r : List (Option Bitmap), (bitmap_or l r).length = l.length) ∧
    (∀ l r : List (Option Bitmap), (bitmap_and l r).length = l.length) ∧
    (∀ l r : List (Option Bitmap), (bitmap_xor l r).length = l.length) ∧
    (∀ l r : List (Option Bitmap), (bitmap_andnot l r).length = l.length) ∧
    (∀ (l : List (Option Bitmap)) (r : List (Option Int)),
      (bitmap_remove l r).length = l.length) ∧
    (∀ (l : List (Option Bitmap)) (r : List (Option Int)),
      (bitmap_contains l r).length = l.length) ∧
    (∀ l r : List (Option Bitmap), (bitmap_has_any l r).length = l.length) ∧
    (∀ col : List (Option String),
      (bitmap_from_string col).length = col.length) ∧
    (∀ (maxLen : ℕ) (col : List (Option Bitmap))
      (out : List (Option (List ℕ))),
      bitmap_to_array maxLen col = Except.ok out →
      out.length = col.length) ∧
    (∀ col : List (Option (List (Option Int))),
      (array_to_bitmap col).length = col.length) ∧
    (∀ col : List (Option Bitmap), (bitmap_max col).length = col.length) ∧
    (∀ col : List (Option Bitmap), (bitmap_min col).length = col.length) ∧
    (∀ (decode : String → Option (List ℕ)) (deser : List ℕ → Option Bitmap)
      (col : List (Option String)),
      (base64_to_bitmap decode deser col).length = col.length) ∧
    (∀ (bm : List (Option Bitmap)) (off : List (Option Int))
      (len? : Option (List (Option Int))),
      (sub_bitmap bm off len?).length = bm.length) := by
  refine ⟨?_, ?_, ?_, ?_, ?_, ?_, ?_, ?_, ?_, ?_, ?_, ?_, ?_, ?_, ?_, ?_, ?_⟩
  · intro col; rw [to_bitmap_fst_eq, List.length_map]
  · intro hash col; rw [bitmap_hash, List.length_map]
  · intro col; rw [bitmap_count, List.length_map]
  · intro l r; exact binopCol_length _ l r
  · intro l r; exact binopCol_length _ l r
  · intro l r; exact binopCol_length _ l r
  · intro l r; exact binopCol_length _ l r
  · intro l r; exact binopCol_length _ l r
  · intro l r; exact zipRows_length _ l r
  · intro l r; exact zipRows_length _ l r
  · intro col
    rw [bitmap_from_string]
    split
    · rw [List.length_replicate]
    · rw [List.length_map]
  · intro maxLen col out h
    rw [bitmap_to_array] at h
    cases hp : bitmapToArrayPrePass maxLen 0 col with
    | error e => rw [hp] at h; cases h
    | ok n =>
      rw [hp] at h
      have hout := Except.ok.inj h
      rw [← hout, List.length_map]
  · intro col
    rw [array_to_bitmap]
    split
    · rw [List.length_replicate]
    · rw [List.length_map]
  · intro col; rw [bitmap_max, List.length_map]
  · intro col; rw [bitmap_min, List.length_map]
  · intro decode deser col; rw [base64_to_bitmap, List.length_map]
  · intro bm off len?
    rw [sub_bitmap]
    split
    · rw [List.length_replicate]
    · rw [List.length_map, List.length_range]

/-- Witness for C10: `bitmap_to_array` at a concrete one-row batch preserves
the row count. -/
theorem C10_witness :
    bitmap_to_array 5 [some ({1} : Bitmap)] = Except.ok [some [1]] ∧
    ([some [1]] : List (Option (List ℕ))).length =
      ([some ({1} : Bitmap)] : List (Option Bitmap)).length := by
  have h : bitmap_to_array 5 [some ({1} : Bitmap)] = Except.ok [some [1]] :=
    rfl
  obtain ⟨-, -, -, -, -, -, -, -, -, -, -, hta, -⟩ := C10_row_count_invariant
  exact ⟨h, hta 5 [some {1}] [some [1]] h⟩

end BitmapFunctions
